import Mathlib

/-!
Verification development for the Deep-Zoomer tile backend.

This file gives a shallow embedding, in Lean 4, of the tile resolution,
cropping and caching engine of the repository:

* `src/backend/services/cache_service.py` — the two-tier tile cache
  (Redis shared tier + in-process dictionary fallback);
* `src/backend/services/tile_service.py` — pyramid geometry
  (`get_dynamic_tile`), the source image resolver (`_get_full_image`)
  with its bounded in-memory pool, and the cache keys;
* `src/backend/services/ml_service.py` — the enhancement steps
  (`super_resolve`, `denoise`, `add_labels`), whose internal failures
  are swallowed;
* `src/backend/api/routes/tiles.py` — the route handlers
  (`get_proxy_tile`, `clear_tile_cache`).

Python dictionaries are modelled as insertion-ordered association lists
(Python dicts preserve insertion order; updating an existing key keeps
its position, `next(iter(d))` is the oldest-inserted key).  Network and
library effects (Redis, HTTP, Pillow, torch, cv2) are modelled by
explicit oracle/environment records: each fallible call is a field
returning `Option`/a result datatype, and exceptions swallowed by
`try/except` in the source become total functions here.
-/

namespace DeepZoomer

/-! ## Ordered dictionaries (Python `dict` model)

An insertion-ordered association list.  `dictSet` mirrors `d[k] = v`:
an existing key keeps its position and gets the new value, a fresh key
is appended at the end.  `next(iter(d))` followed by `pop` — used by
both eviction loops in the source — removes the head of the list. -/

def dictSet {β : Type} : List (String × β) → String → β → List (String × β)
  | [], k, v => [(k, v)]
  | (k', v') :: rest, k, v =>
    if k' = k then (k, v) :: rest else (k', v') :: dictSet rest k v

theorem lookup_dictSet_self {β : Type} (d : List (String × β)) (k : String) (v : β) :
    (dictSet d k v).lookup k = some v := by
  induction d with
  | nil => simp [dictSet, List.lookup]
  | cons p rest ih =>
    obtain ⟨k', v'⟩ := p
    simp only [dictSet]
    by_cases h : k' = k
    · subst h; simp [List.lookup]
    · have hb : (k == k') = false := beq_eq_false_iff_ne.mpr (Ne.symm h)
      rw [if_neg h]
      simpa [List.lookup, hb] using ih

theorem dictSet_of_lookup_none {β : Type} (d : List (String × β)) (k : String) (v : β)
    (h : d.lookup k = none) : dictSet d k v = d ++ [(k, v)] := by
  induction d with
  | nil => simp [dictSet]
  | cons p rest ih =>
    obtain ⟨k', v'⟩ := p
    simp only [List.lookup] at h
    by_cases hk : k' = k
    · rw [show (k == k') = true by simp [hk]] at h
      simp at h
    · rw [show (k == k') = false by simpa [beq_eq_false_iff_ne] using Ne.symm hk] at h
      simp only [dictSet, hk, if_false, List.cons_append]
      rw [ih h]

theorem dictSet_length_of_lookup_some {β : Type} (d : List (String × β)) (k : String) (v w : β)
    (h : d.lookup k = some w) : (dictSet d k v).length = d.length := by
  induction d with
  | nil => simp [List.lookup] at h
  | cons p rest ih =>
    obtain ⟨k', v'⟩ := p
    by_cases hk : k' = k
    · simp [dictSet, hk]
    · simp only [List.lookup] at h
      rw [show (k == k') = false by simpa [beq_eq_false_iff_ne] using Ne.symm hk] at h
      simp [dictSet, hk, ih h]

theorem lookup_append_of_lookup_none {β : Type} (d e : List (String × β)) (k : String)
    (h : d.lookup k = none) : (d ++ e).lookup k = e.lookup k := by
  induction d with
  | nil => simp
  | cons p rest ih =>
    simp only [List.lookup] at h ⊢
    cases hbeq : (k == p.1) with
    | true => rw [hbeq] at h; simp at h
    | false =>
      rw [hbeq] at h
      simpa [List.lookup, hbeq] using ih h

theorem lookup_tail_of_lookup_none {β : Type} (d : List (String × β)) (k : String)
    (h : d.lookup k = none) : d.tail.lookup k = none := by
  cases d with
  | nil => simp
  | cons p rest =>
    simp only [List.lookup] at h
    cases hbeq : (k == p.1) with
    | true => rw [hbeq] at h; simp at h
    | false => rw [hbeq] at h; simpa using h

/-! ## Tile cache (`cache_service.py`)

`CacheService` holds a Redis client plus an in-process dictionary
(`memory_cache`).  The state is modelled by `CacheState`:
`connected` is the `self.connected` flag, `redis` is the shared tier's
key space, and `redisFailing` models the environment in which every
Redis operation raises (connection lost after `initialize`); the
`try/except` blocks of the source then take their `except` branches.
Values are byte strings, modelled as `List Nat`. -/

structure CacheState where
  connected : Bool
  redisFailing : Bool
  redis : List (String × List Nat)
  memory : List (String × List Nat)

/-- Python truthiness of an `Optional[bytes]` value: `None` and `b""`
are falsy (`if cached_data:` in the source). -/
def bytesTruthy : Option (List Nat) → Bool
  | none => false
  | some b => !b.isEmpty

/-- Embedding of `CacheService.get_tile` (cache_service.py lines 29–42).
Reads Redis when connected (`if cached_data: return cached_data`), falls
through to `self.memory_cache.get(cache_key)` when the entry is falsy,
absent, the client is not connected, or the Redis read raises (the
`except` branch also returns `self.memory_cache.get(cache_key)`). -/
def getTile (s : CacheState) (key : String) : Option (List Nat) :=
  if s.connected then
    if s.redisFailing then
      s.memory.lookup key
    else if bytesTruthy (s.redis.lookup key) then
      s.redis.lookup key
    else
      s.memory.lookup key
  else
    s.memory.lookup key

/-- The local-tier write of `set_tile` (cache_service.py lines 47–50):
`self.memory_cache[cache_key] = tile_data` followed by
`if len(self.memory_cache) > 200: self.memory_cache.pop(next(iter(...)))`
— insert first, then evict the oldest-inserted entry on overflow. -/
def memStore (mem : List (String × List Nat)) (key : String) (v : List Nat) :
    List (String × List Nat) :=
  if (dictSet mem key v).length > 200 then (dictSet mem key v).tail else dictSet mem key v

/-- Embedding of `CacheService.set_tile` (cache_service.py lines 44–57).
The memory tier is written first; afterwards, when connected, `setex`
writes the shared tier; if that write raises, the `except` swallows the
error and the memory write remains.  The body never raises, which is
why this embedding is a total function. -/
def setTile (s : CacheState) (key : String) (v : List Nat) : CacheState :=
  if s.connected && !s.redisFailing then
    { s with memory := memStore s.memory key v, redis := dictSet s.redis key v }
  else
    { s with memory := memStore s.memory key v }

theorem setTile_memory (s : CacheState) (k : String) (v : List Nat) :
    (setTile s k v).memory = memStore s.memory k v := by
  unfold setTile; split <;> rfl

theorem setTile_connected (s : CacheState) (k : String) (v : List Nat) :
    (setTile s k v).connected = s.connected := by
  unfold setTile; split <;> rfl

theorem setTile_redisFailing (s : CacheState) (k : String) (v : List Nat) :
    (setTile s k v).redisFailing = s.redisFailing := by
  unfold setTile; split <;> rfl

/-- Writing key `k` into a memory tier of at most 200 entries leaves `k`
present afterwards: the capacity eviction removes the oldest-inserted
entry, never the entry just stored. -/
theorem memStore_lookup (mem : List (String × List Nat)) (k : String) (v : List Nat)
    (hlen : mem.length ≤ 200) : (memStore mem k v).lookup k = some v := by
  unfold memStore
  cases hkl : mem.lookup k with
  | some w =>
    rw [if_neg (by rw [dictSet_length_of_lookup_some mem k v w hkl]; omega)]
    exact lookup_dictSet_self mem k v
  | none =>
    rw [dictSet_of_lookup_none mem k v hkl]
    by_cases hgt : (mem ++ [(k, v)]).length > 200
    · rw [if_pos hgt]
      cases hm : mem with
      | nil => subst hm; simp at hgt
      | cons p rest =>
        subst hm
        simp only [List.cons_append, List.tail_cons]
        have hrest : rest.lookup k = none := by
          simpa using lookup_tail_of_lookup_none (p :: rest) k hkl
        rw [lookup_append_of_lookup_none rest [(k, v)] k hrest]
        simp [List.lookup]
    · rw [if_neg hgt, lookup_append_of_lookup_none mem [(k, v)] k hkl]
      simp [List.lookup]

/-- The local tier never exceeds 200 entries across `set_tile` calls. -/
theorem memStore_length (mem : List (String × List Nat)) (k : String) (v : List Nat)
    (hlen : mem.length ≤ 200) : (memStore mem k v).length ≤ 200 := by
  unfold memStore
  have hds : (dictSet mem k v).length ≤ mem.length + 1 := by
    cases hkl : mem.lookup k with
    | some w => rw [dictSet_length_of_lookup_some mem k v w hkl]; omega
    | none => rw [dictSet_of_lookup_none mem k v hkl]; simp
  split <;> rename_i hgt
  · simp only [List.length_tail]; omega
  · omega

/-- C3 — fail-open two-tier cache.  For every cache state whose local
tier respects its 200-entry capacity invariant, every key and value:
(1) `set_tile` stores the entry in the local tier even when the shared
tier is unreachable or its write raises, and (being a total function)
returns without error;
(2) whenever the shared tier is disconnected or erroring, `get_tile`
returns exactly the local tier's entry;
(3) with the shared tier unreachable, a tile stored with `set_tile` and
then read with `get_tile` is still returned — no cache failure reaches
the caller. -/
theorem shared_tier_failure_absorbed (s : CacheState) (k : String) (v : List Nat)
    (hlen : s.memory.length ≤ 200) :
    (setTile s k v).memory.lookup k = some v ∧
    (s.connected = false ∨ s.redisFailing = true →
      getTile s k = s.memory.lookup k) ∧
    (s.connected = false ∨ s.redisFailing = true →
      getTile (setTile s k v) k = some v) := by
  have hmem : (setTile s k v).memory.lookup k = some v := by
    rw [setTile_memory]; exact memStore_lookup s.memory k v hlen
  refine ⟨hmem, ?_, ?_⟩
  · rintro (h | h) <;> simp [getTile, h]
  · rintro (h | h) <;>
      simp [getTile, setTile_connected, setTile_redisFailing, h, hmem]

/-- Witness for C3 at a concrete state: disconnected cache with one old
entry; storing then reading key "k" returns the stored bytes. -/
theorem shared_tier_failure_absorbed_witness :
    (setTile ⟨false, false, [], [("old", [1])]⟩ "k" [7, 8]).memory.lookup "k" = some [7, 8] ∧
    ((false : Bool) = false ∨ (false : Bool) = true →
      getTile ⟨false, false, [], [("old", [1])]⟩ "k" =
        List.lookup "k" [("old", [1])]) ∧
    ((false : Bool) = false ∨ (false : Bool) = true →
      getTile (setTile ⟨false, false, [], [("old", [1])]⟩ "k" [7, 8]) "k" = some [7, 8]) :=
  shared_tier_failure_absorbed ⟨false, false, [], [("old", [1])]⟩ "k" [7, 8] (by decide)

/-- C9 — round trip.  Storing bytes `v` under key `k` and immediately
reading `k` returns exactly `v`, for every cache state whose local tier
respects the capacity invariant (which `set_tile` itself preserves, see
`memStore_length`): the eviction triggered by the store never evicts
the just-stored key, and the read finds `v` whether it is served from
the shared tier or from the local fallback. -/
theorem set_then_get_roundtrip (s : CacheState) (k : String) (v : List Nat)
    (hlen : s.memory.length ≤ 200) :
    getTile (setTile s k v) k = some v := by
  have hmem : (setTile s k v).memory.lookup k = some v := by
    rw [setTile_memory]; exact memStore_lookup s.memory k v hlen
  unfold getTile
  rw [setTile_connected, setTile_redisFailing]
  by_cases hcon : s.connected
  · by_cases hf : s.redisFailing
    · simp [hcon, hf, hmem]
    · have hredis : (setTile s k v).redis = dictSet s.redis k v := by
        unfold setTile; simp [hcon, hf]
      rw [hredis, lookup_dictSet_self s.redis k v]
      cases v with
      | nil => simpa [hcon, hf, bytesTruthy] using hmem
      | cons b bs => simp [hcon, hf, bytesTruthy]
  · simp [hcon, hmem]

/-- Witness for C9: concrete connected cache with one shared-tier and
one local entry; round trip of bytes `[3]` under key "t". -/
theorem set_then_get_roundtrip_witness :
    getTile (setTile ⟨true, false, [("r", [9])], [("m", [2])]⟩ "t" [3]) "t" = some [3] :=
  set_then_get_roundtrip ⟨true, false, [("r", [9])], [("m", [2])]⟩ "t" [3] (by decide)

/-- Embedding of `CacheService.invalidate_image` (cache_service.py lines
107–121): when not connected it returns at once; otherwise it deletes
the Redis keys matching the glob `f"{image_id}:*"` (keys extending
`image_id ++ ":"`); a Redis error is swallowed, leaving the state
unchanged.  The memory tier is never touched. -/
def invalidateImage (s : CacheState) (imageId : String) : CacheState :=
  if s.connected then
    if s.redisFailing then s
    else { s with redis := s.redis.filter (fun p => !((imageId ++ ":").isPrefixOf p.1)) }
  else s

/-- Embedding of the route `DELETE /{image_id}/cache` (tiles.py lines
151–166, `clear_tile_cache`): it awaits `invalidate_image` and returns
the success message; the `except` branch (HTTP 500) is unreachable
because `invalidate_image` never raises.  The boolean is `true` for the
success response. -/
def clearTileCache (s : CacheState) (imageId : String) : CacheState × Bool :=
  (invalidateImage s imageId, true)

/-- C10 — prefix invalidation frame.  For every cache state and image
identifier: when the shared tier is disconnected, `invalidate_image`
performs no deletion on either tier and raises no error (it is the
identity on the state); in every case it leaves the local tier
unchanged; and the cache-clear endpoint reports success regardless. -/
theorem invalidate_image_frame (s : CacheState) (imageId : String)
    (hdisc : s.connected = false) :
    invalidateImage s imageId = s ∧
    (∀ s' : CacheState, (invalidateImage s' imageId).memory = s'.memory) ∧
    (∀ s' : CacheState, (clearTileCache s' imageId).2 = true) := by
  refine ⟨by simp [invalidateImage, hdisc], ?_, fun s' => rfl⟩
  intro s'
  unfold invalidateImage
  split
  · split <;> rfl
  · rfl

/-- Witness for C10 at a concrete disconnected state. -/
theorem invalidate_image_frame_witness :
    invalidateImage ⟨false, false, [("img:0", [1])], [("img:1", [2])]⟩ "img" =
      ⟨false, false, [("img:0", [1])], [("img:1", [2])]⟩ ∧
    (∀ s' : CacheState, (invalidateImage s' "img").memory = s'.memory) ∧
    (∀ s' : CacheState, (clearTileCache s' "img").2 = true) :=
  invalidate_image_frame ⟨false, false, [("img:0", [1])], [("img:1", [2])]⟩ "img" rfl

/-! ## Pyramid geometry (`tile_service.py`, `get_dynamic_tile`, lines 201–231)

`math.ceil(math.log2 n)` is the least `k` with `n ≤ 2 ^ k`; we compute
it by a bounded search (`k ≤ n` always suffices since `n ≤ 2 ^ n`) and
prove below that it agrees with Mathlib's `Nat.clog 2`.

Python evaluates `scale = 2 ** (max_level - z)` exactly (an `int` when
`z ≤ max_level`, a dyadic `float` such as `0.25` otherwise), and all
the crop-box arithmetic stays exact dyadic arithmetic, so the embedding
uses `ℚ`.  For concrete evaluation (kernel reduction) the same plan is
recomputed over `ℕ` with every length multiplied by `2 ^ z`
(`cropPlanN`), and `cropPlanQ_eq_N` proves the two agree. -/

def clog2go (n : Nat) : Nat → Nat → Nat
  | 0, k => k
  | fuel + 1, k => if n ≤ 2 ^ k then k else clog2go n fuel (k + 1)

/-- Least `k` with `n ≤ 2 ^ k`, i.e. `ceil(log2 n)` for `n ≥ 1`. -/
def ceilLog2 (n : Nat) : Nat := clog2go n n 0

theorem clog2go_spec (n : Nat) : ∀ fuel k, n ≤ 2 ^ (k + fuel) →
    (∀ i, i < k → ¬ n ≤ 2 ^ i) →
    n ≤ 2 ^ clog2go n fuel k ∧ ∀ i, i < clog2go n fuel k → ¬ n ≤ 2 ^ i := by
  intro fuel
  induction fuel with
  | zero => intro k h hmin; exact ⟨by simpa using h, hmin⟩
  | succ m ih =>
    intro k h hmin
    simp only [clog2go]
    by_cases hk : n ≤ 2 ^ k
    · rw [if_pos hk]
      exact ⟨hk, hmin⟩
    · rw [if_neg hk]
      refine ih (k + 1) (by rw [show k + 1 + m = k + (m + 1) by omega]; exact h) ?_
      intro i hi
      rcases Nat.lt_succ_iff_lt_or_eq.mp hi with hlt | heq
      · exact hmin i hlt
      · subst heq; exact hk

/-- Sanity: the bounded search computes exactly `⌈log₂ n⌉` (`Nat.clog 2`). -/
theorem ceilLog2_eq_clog (n : Nat) : ceilLog2 n = Nat.clog 2 n := by
  obtain ⟨h1, h2⟩ := clog2go_spec n n 0 (by simpa using (Nat.lt_two_pow n).le)
    (by intro i hi; omega)
  have hle : Nat.clog 2 n ≤ ceilLog2 n := (Nat.le_pow_iff_clog_le (by norm_num)).mp h1
  have hge : ¬ Nat.clog 2 n < ceilLog2 n := fun hlt =>
    h2 _ hlt (Nat.le_pow_clog (by norm_num) n)
  omega

/-- `max_level = math.ceil(math.log2(max(width, height)))` (line 187). -/
def dzMaxLevel (w h : Nat) : Nat := ceilLog2 (max w h)

/-- `scale = 2 ** (max_level - z)` (line 205), exact over `ℚ`. -/
def dzScale (w h z : Nat) : ℚ := 2 ^ ((dzMaxLevel w h : ℤ) - (z : ℤ))

/-- `full_res_tile_size = tile_size * scale` with `tile_size = 256` (line 208). -/
def dzFullTs (w h z : Nat) : ℚ := 256 * dzScale w h z

/-- `left = x * full_res_tile_size` (line 210). -/
def dzLeft (w h z x : Nat) : ℚ := (x : ℚ) * dzFullTs w h z

/-- `top = y * full_res_tile_size` (line 211). -/
def dzTop (w h z y : Nat) : ℚ := (y : ℚ) * dzFullTs w h z

/-- `right = min(left + full_res_tile_size, width)` (line 212). -/
def dzRight (w h z x : Nat) : ℚ := min (dzLeft w h z x + dzFullTs w h z) (w : ℚ)

/-- `bottom = min(top + full_res_tile_size, height)` (line 213). -/
def dzBottom (w h z y : Nat) : ℚ := min (dzTop w h z y + dzFullTs w h z) (h : ℚ)

/-- Python `int(...)` applied to a real value: truncation toward zero. -/
def pyInt (q : ℚ) : ℤ := if 0 ≤ q then ⌊q⌋ else -⌊-q⌋

/-- The crop plan computed by `get_dynamic_tile`: box coordinates in
source pixel space plus the output size passed to `resize`
(`target_w = max(1, int((right - left) / scale))`, lines 224–229). -/
structure CropPlan where
  left : ℚ
  top : ℚ
  right : ℚ
  bottom : ℚ
  outW : ℤ
  outH : ℤ

/-- Embedding of the geometry portion of `get_dynamic_tile` (lines
201–231): `none` is the `return None` of the out-of-bounds check (line
215), which the route maps to HTTP 404 — tile absent, not a server
error. -/
def cropPlanQ (w h z x y : Nat) : Option CropPlan :=
  if dzLeft w h z x ≥ (w : ℚ) ∨ dzTop w h z y ≥ (h : ℚ) ∨
      dzRight w h z x ≤ dzLeft w h z x ∨ dzBottom w h z y ≤ dzTop w h z y then
    none
  else
    some ⟨dzLeft w h z x, dzTop w h z y, dzRight w h z x, dzBottom w h z y,
      max 1 (pyInt ((dzRight w h z x - dzLeft w h z x) / dzScale w h z)),
      max 1 (pyInt ((dzBottom w h z y - dzTop w h z y) / dzScale w h z))⟩

/-! Scaled-integer twin of the plan: every length is multiplied by
`2 ^ z`, turning the dyadic arithmetic into `ℕ` arithmetic that the
kernel evaluates.  `cropPlanQ_eq_N` proves it computes the same plan. -/

def dzTsN (w h : Nat) : Nat := 256 * 2 ^ dzMaxLevel w h

def dzLeftN (w h x : Nat) : Nat := x * dzTsN w h

def dzTopN (w h y : Nat) : Nat := y * dzTsN w h

def dzRightN (w h z x : Nat) : Nat := min (dzLeftN w h x + dzTsN w h) (w * 2 ^ z)

def dzBottomN (w h z y : Nat) : Nat := min (dzTopN w h y + dzTsN w h) (h * 2 ^ z)

structure CropPlanN where
  leftN : Nat
  topN : Nat
  rightN : Nat
  bottomN : Nat
  outWN : Nat
  outHN : Nat
deriving DecidableEq

def cropPlanN (w h z x y : Nat) : Option CropPlanN :=
  if w * 2 ^ z ≤ dzLeftN w h x ∨ h * 2 ^ z ≤ dzTopN w h y ∨
      dzRightN w h z x ≤ dzLeftN w h x ∨ dzBottomN w h z y ≤ dzTopN w h y then
    none
  else
    some ⟨dzLeftN w h x, dzTopN w h y, dzRightN w h z x, dzBottomN w h z y,
      max 1 ((dzRightN w h z x - dzLeftN w h x) / 2 ^ dzMaxLevel w h),
      max 1 ((dzBottomN w h z y - dzTopN w h y) / 2 ^ dzMaxLevel w h)⟩

/-- Divide a scaled-integer plan back by `2 ^ z`. -/
def scaleUp (z : Nat) (p : CropPlanN) : CropPlan :=
  ⟨(p.leftN : ℚ) / 2 ^ z, (p.topN : ℚ) / 2 ^ z, (p.rightN : ℚ) / 2 ^ z,
    (p.bottomN : ℚ) / 2 ^ z, (p.outWN : ℤ), (p.outHN : ℤ)⟩

theorem dzScale_eq (w h z : Nat) :
    dzScale w h z = (2 ^ dzMaxLevel w h : ℚ) / 2 ^ z := by
  unfold dzScale
  rw [zpow_sub₀ (two_ne_zero), zpow_natCast, zpow_natCast]

theorem dzFullTs_eq (w h z : Nat) :
    dzFullTs w h z = (dzTsN w h : ℚ) / 2 ^ z := by
  unfold dzFullTs dzTsN
  rw [dzScale_eq]
  push_cast
  ring

theorem dzLeft_eq (w h z x : Nat) :
    dzLeft w h z x = (dzLeftN w h x : ℚ) / 2 ^ z := by
  unfold dzLeft dzLeftN
  rw [dzFullTs_eq]
  push_cast
  ring

theorem dzTop_eq (w h z y : Nat) :
    dzTop w h z y = (dzTopN w h y : ℚ) / 2 ^ z := by
  unfold dzTop dzTopN
  rw [dzFullTs_eq]
  push_cast
  ring

theorem cast_mul_pow_div (w z : Nat) : ((w * 2 ^ z : ℕ) : ℚ) / 2 ^ z = (w : ℚ) := by
  push_cast
  rw [mul_div_assoc, div_self (by positivity), mul_one]

theorem dzRight_eq (w h z x : Nat) :
    dzRight w h z x = (dzRightN w h z x : ℚ) / 2 ^ z := by
  unfold dzRight dzRightN
  rw [dzLeft_eq, dzFullTs_eq, div_add_div_same,
    show ((w : ℕ) : ℚ) = ((w * 2 ^ z : ℕ) : ℚ) / 2 ^ z from (cast_mul_pow_div w z).symm,
    min_div_div_right (by positivity : (0:ℚ) ≤ 2 ^ z)]
  push_cast [Nat.cast_min]
  ring_nf

theorem dzBottom_eq (w h z y : Nat) :
    dzBottom w h z y = (dzBottomN w h z y : ℚ) / 2 ^ z := by
  unfold dzBottom dzBottomN
  rw [dzTop_eq, dzFullTs_eq, div_add_div_same,
    show ((h : ℕ) : ℚ) = ((h * 2 ^ z : ℕ) : ℚ) / 2 ^ z from (cast_mul_pow_div h z).symm,
    min_div_div_right (by positivity : (0:ℚ) ≤ 2 ^ z)]
  push_cast [Nat.cast_min]
  ring_nf

theorem cast_div_le_div_iff (z a b : Nat) :
    ((a : ℚ) / 2 ^ z ≤ (b : ℚ) / 2 ^ z) ↔ a ≤ b := by
  rw [div_le_div_iff_of_pos_right (by positivity : (0:ℚ) < 2 ^ z)]
  exact Nat.cast_le

theorem dzCond_iff (w h z x y : Nat) :
    (dzLeft w h z x ≥ (w : ℚ) ∨ dzTop w h z y ≥ (h : ℚ) ∨
      dzRight w h z x ≤ dzLeft w h z x ∨ dzBottom w h z y ≤ dzTop w h z y) ↔
    (w * 2 ^ z ≤ dzLeftN w h x ∨ h * 2 ^ z ≤ dzTopN w h y ∨
      dzRightN w h z x ≤ dzLeftN w h x ∨ dzBottomN w h z y ≤ dzTopN w h y) := by
  rw [dzLeft_eq, dzTop_eq, dzRight_eq, dzBottom_eq]
  refine or_congr ?_ (or_congr ?_ (or_congr ?_ ?_))
  · rw [ge_iff_le, show ((w : ℕ) : ℚ) = ((w * 2 ^ z : ℕ) : ℚ) / 2 ^ z from
      (cast_mul_pow_div w z).symm]
    exact cast_div_le_div_iff z _ _
  · rw [ge_iff_le, show ((h : ℕ) : ℚ) = ((h * 2 ^ z : ℕ) : ℚ) / 2 ^ z from
      (cast_mul_pow_div h z).symm]
    exact cast_div_le_div_iff z _ _
  · exact cast_div_le_div_iff z _ _
  · exact cast_div_le_div_iff z _ _

theorem dzOut_eq (w h z : Nat) (a b : Nat) (hle : b ≤ a) :
    max 1 (pyInt (((a : ℚ) / 2 ^ z - (b : ℚ) / 2 ^ z) / dzScale w h z)) =
      ((max 1 ((a - b) / 2 ^ dzMaxLevel w h) : ℕ) : ℤ) := by
  have hratio : ((a : ℚ) / 2 ^ z - (b : ℚ) / 2 ^ z) / dzScale w h z =
      ((a - b : ℕ) : ℚ) / ((2 ^ dzMaxLevel w h : ℕ) : ℚ) := by
    rw [dzScale_eq, div_sub_div_same, Nat.cast_sub hle]
    push_cast
    rw [div_div_div_eq]
    rw [mul_comm ((a : ℚ) - b) (2 ^ z), mul_div_mul_left _ _ (by positivity : (2:ℚ) ^ z ≠ 0)]
  rw [hratio, pyInt, if_pos (by positivity), Rat.floor_natCast_div_natCast]
  push_cast [Nat.cast_max]
  ring_nf

/-- The `ℚ` plan and the scaled-integer plan agree. -/
theorem cropPlanQ_eq_N (w h z x y : Nat) :
    cropPlanQ w h z x y = (cropPlanN w h z x y).map (scaleUp z) := by
  unfold cropPlanQ cropPlanN
  by_cases hc : w * 2 ^ z ≤ dzLeftN w h x ∨ h * 2 ^ z ≤ dzTopN w h y ∨
      dzRightN w h z x ≤ dzLeftN w h x ∨ dzBottomN w h z y ≤ dzTopN w h y
  · rw [if_pos ((dzCond_iff w h z x y).mpr hc), if_pos hc]
    rfl
  · rw [if_neg (fun hq => hc ((dzCond_iff w h z x y).mp hq)), if_neg hc]
    push_neg at hc
    obtain ⟨-, -, hxr, hyb⟩ := hc
    rw [Option.map_some']
    unfold scaleUp
    dsimp only
    rw [dzLeft_eq w h z x, dzTop_eq w h z y, dzRight_eq w h z x, dzBottom_eq w h z y,
      dzOut_eq w h z _ _ (le_of_lt hxr), dzOut_eq w h z _ _ (le_of_lt hyb)]

/-- C5 — crop box characterization.  For every source size `(w, h)`,
level `z` (with `scale = 2 ^ (maxLevel - z)`), and tile coordinates
`x, y ≥ 0` at `tileSize = 256`: the tile resolves to absent (`None`,
mapped by the route to 404, not a server error) exactly when
`left ≥ width ∨ top ≥ height ∨ right ≤ left ∨ bottom ≤ top`; otherwise
the crop box lies fully inside `[0, width) × [0, height)`. -/
theorem crop_box_absent_iff_inside (w h z x y : Nat) :
    (cropPlanQ w h z x y = none ↔
      dzLeft w h z x ≥ (w : ℚ) ∨ dzTop w h z y ≥ (h : ℚ) ∨
      dzRight w h z x ≤ dzLeft w h z x ∨ dzBottom w h z y ≤ dzTop w h z y) ∧
    (∀ p : CropPlan, cropPlanQ w h z x y = some p →
      0 ≤ p.left ∧ p.left < p.right ∧ p.right ≤ (w : ℚ) ∧
      0 ≤ p.top ∧ p.top < p.bottom ∧ p.bottom ≤ (h : ℚ)) := by
  constructor
  · unfold cropPlanQ
    split <;> rename_i hcond
    · simpa using hcond
    · simpa using hcond
  · intro p hp
    unfold cropPlanQ at hp
    split at hp
    · exact absurd hp (by simp)
    · rename_i hcond
      push_neg at hcond
      obtain ⟨hw, hh, hr, hb⟩ := hcond
      injection hp with hp
      subst hp
      have hleft : (0:ℚ) ≤ dzLeft w h z x := by
        unfold dzLeft dzFullTs dzScale
        positivity
      have htop : (0:ℚ) ≤ dzTop w h z y := by
        unfold dzTop dzFullTs dzScale
        positivity
      exact ⟨hleft, hr, min_le_right _ _, htop, hb, min_le_right _ _⟩

/-- Witness for C5 at the spec's concrete scenario: a 10000×6000 source
has `maxLevel = 14`; the level-14 root tile crops to `(0,0,256,256)`
with output `256×256`, and the box is inside the image. -/
theorem crop_box_absent_iff_inside_witness :
    0 ≤ (scaleUp 14 ⟨0, 0, 4194304, 4194304, 256, 256⟩).left ∧
    (scaleUp 14 ⟨0, 0, 4194304, 4194304, 256, 256⟩).left <
      (scaleUp 14 ⟨0, 0, 4194304, 4194304, 256, 256⟩).right ∧
    (scaleUp 14 ⟨0, 0, 4194304, 4194304, 256, 256⟩).right ≤ ((10000 : ℕ) : ℚ) ∧
    0 ≤ (scaleUp 14 ⟨0, 0, 4194304, 4194304, 256, 256⟩).top ∧
    (scaleUp 14 ⟨0, 0, 4194304, 4194304, 256, 256⟩).top <
      (scaleUp 14 ⟨0, 0, 4194304, 4194304, 256, 256⟩).bottom ∧
    (scaleUp 14 ⟨0, 0, 4194304, 4194304, 256, 256⟩).bottom ≤ ((6000 : ℕ) : ℚ) :=
  (crop_box_absent_iff_inside 10000 6000 14 0 0).2
    (scaleUp 14 ⟨0, 0, 4194304, 4194304, 256, 256⟩)
    (by rw [cropPlanQ_eq_N,
          show cropPlanN 10000 6000 14 0 0 = some ⟨0, 0, 4194304, 4194304, 256, 256⟩
            from by decide, Option.map_some'])

/-- Modelled from the spec: Python's `round()` — banker's rounding,
half to even — as used by the specification's output-dimension formula
`outputWidth = max(1, round((right-left)/scale))`.  (The code instead
uses `int(...)`, truncation; see the counterexample below.) -/
def pyRound (q : ℚ) : ℤ :=
  if q - ⌊q⌋ < 1/2 then ⌊q⌋
  else if 1/2 < q - ⌊q⌋ then ⌊q⌋ + 1
  else if Even ⌊q⌋ then ⌊q⌋ else ⌊q⌋ + 1

/-- Modelled from the spec: the claimed output dimension
`max(1, round(diff / scale))`. -/
def specOutDim (diff scale : ℚ) : ℤ := max 1 (pyRound (diff / scale))

/-- C2 counterexample.  For a 3×3 source at level `z = 1` (scale 2),
tile (0,0) has crop box `(0,0,3,3)`; the code computes the output width
`max(1, int(3/2)) = 1`, while the claim's formula
`max(1, round(3/2))` gives `2`.  So the output dimensions are not
`max(1, round(...))` as claimed. -/
theorem output_dims_round_counterexample :
    (cropPlanQ 3 3 1 0 0).map (fun p => p.outW) = some 1 ∧
    specOutDim (dzRight 3 3 1 0 - dzLeft 3 3 1 0) (dzScale 3 3 1) = 2 ∧
    (1 : ℤ) ≠ 2 := by
  refine ⟨?_, ?_, by decide⟩
  · rw [cropPlanQ_eq_N,
      show cropPlanN 3 3 1 0 0 = some ⟨0, 0, 6, 6, 1, 1⟩ from by decide,
      Option.map_some']
    rfl
  · have hscale : dzScale 3 3 1 = 2 := by
      rw [dzScale_eq, show dzMaxLevel 3 3 = 2 from by decide]
      norm_num
    have hleft : dzLeft 3 3 1 0 = 0 := by
      rw [dzLeft_eq, show dzLeftN 3 3 0 = 0 from by decide]
      norm_num
    have hright : dzRight 3 3 1 0 = 3 := by
      rw [dzRight_eq, show dzRightN 3 3 1 0 = 6 from by decide]
      norm_num
    rw [hscale, hleft, hright]
    have hfloor : ⌊(3:ℚ)/2⌋ = 1 := by
      rw [show ((3:ℚ)/2) = ((3:ℕ):ℚ)/((2:ℕ):ℚ) by norm_num,
        Rat.floor_natCast_div_natCast]
      decide
    unfold specOutDim pyRound
    rw [show ((3:ℚ) - 0) = 3 by norm_num, hfloor]
    norm_num [Int.even_iff]

/-- C2 amended.  For every crop box produced at scale `s`, the output
dimensions passed to the resize are
`outputWidth = max(1, trunc((right-left)/s))` and
`outputHeight = max(1, trunc((bottom-top)/s))` — truncation toward zero
(Python `int()`), not rounding — and both are at least 1 even for edge
tiles. -/
theorem output_dims_trunc (w h z x y : Nat) (p : CropPlan)
    (hp : cropPlanQ w h z x y = some p) :
    p.outW = max 1 (pyInt ((p.right - p.left) / dzScale w h z)) ∧
    p.outH = max 1 (pyInt ((p.bottom - p.top) / dzScale w h z)) ∧
    1 ≤ p.outW ∧ 1 ≤ p.outH := by
  unfold cropPlanQ at hp
  split at hp
  · exact absurd hp (by simp)
  · injection hp with hp
    subst hp
    exact ⟨rfl, rfl, le_max_left 1 _, le_max_left 1 _⟩

/-- Witness for the amended C2 at the 3×3, z=1 edge tile. -/
theorem output_dims_trunc_witness :
    (scaleUp 1 ⟨0, 0, 6, 6, 1, 1⟩).outW =
      max 1 (pyInt (((scaleUp 1 ⟨0, 0, 6, 6, 1, 1⟩).right -
        (scaleUp 1 ⟨0, 0, 6, 6, 1, 1⟩).left) / dzScale 3 3 1)) ∧
    (scaleUp 1 ⟨0, 0, 6, 6, 1, 1⟩).outH =
      max 1 (pyInt (((scaleUp 1 ⟨0, 0, 6, 6, 1, 1⟩).bottom -
        (scaleUp 1 ⟨0, 0, 6, 6, 1, 1⟩).top) / dzScale 3 3 1)) ∧
    1 ≤ (scaleUp 1 ⟨0, 0, 6, 6, 1, 1⟩).outW ∧
    1 ≤ (scaleUp 1 ⟨0, 0, 6, 6, 1, 1⟩).outH :=
  output_dims_trunc 3 3 1 0 0 (scaleUp 1 ⟨0, 0, 6, 6, 1, 1⟩)
    (by rw [cropPlanQ_eq_N,
        show cropPlanN 3 3 1 0 0 = some ⟨0, 0, 6, 6, 1, 1⟩ from by decide,
        Option.map_some'])

/-! ## MD5 (`hashlib.md5(image_url.encode()).hexdigest()`)

`get_dynamic_tile` hashes the source URL with MD5 before building its
cache key (tile_service.py line 190).  This is the reference MD5
algorithm (RFC 1321) over byte lists; `md5hex ""`,
`md5hex "abc"` and `md5hex "The quick brown fox..."` reproduce the
standard test vectors. -/

def md5Shifts : List Nat :=
  [7,12,17,22,7,12,17,22,7,12,17,22,7,12,17,22,
   5,9,14,20,5,9,14,20,5,9,14,20,5,9,14,20,
   4,11,16,23,4,11,16,23,4,11,16,23,4,11,16,23,
   6,10,15,21,6,10,15,21,6,10,15,21,6,10,15,21]

def md5K : List Nat :=
  [0xd76aa478,0xe8c7b756,0x242070db,0xc1bdceee,
   0xf57c0faf,0x4787c62a,0xa8304613,0xfd469501,
   0x698098d8,0x8b44f7af,0xffff5bb1,0x895cd7be,
   0x6b901122,0xfd987193,0xa679438e,0x49b40821,
   0xf61e2562,0xc040b340,0x265e5a51,0xe9b6c7aa,
   0xd62f105d,0x02441453,0xd8a1e681,0xe7d3fbc8,
   0x21e1cde6,0xc33707d6,0xf4d50d87,0x455a14ed,
   0xa9e3e905,0xfcefa3f8,0x676f02d9,0x8d2a4c8a,
   0xfffa3942,0x8771f681,0x6d9d6122,0xfde5380c,
   0xa4beea44,0x4bdecfa9,0xf6bb4b60,0xbebfbc70,
   0x289b7ec6,0xeaa127fa,0xd4ef3085,0x04881d05,
   0xd9d4d039,0xe6db99e5,0x1fa27cf8,0xc4ac5665,
   0xf4292244,0x432aff97,0xab9423a7,0xfc93a039,
   0x655b59c3,0x8f0ccc92,0xffeff47d,0x85845dd1,
   0x6fa87e4f,0xfe2ce6e0,0xa3014314,0x4e0811a1,
   0xf7537e82,0xbd3af235,0x2ad7d2bb,0xeb86d391]

def mask32 : Nat := 0xffffffff

def rotl32 (x s : Nat) : Nat := ((x <<< s) % 2 ^ 32) + (x >>> (32 - s))

def md5F (i b c d : Nat) : Nat :=
  if i < 16 then (b &&& c) ||| ((b ^^^ mask32) &&& d)
  else if i < 32 then (d &&& b) ||| ((d ^^^ mask32) &&& c)
  else if i < 48 then b ^^^ c ^^^ d
  else c ^^^ (b ||| (d ^^^ mask32))

def md5G (i : Nat) : Nat :=
  if i < 16 then i
  else if i < 32 then (5 * i + 1) % 16
  else if i < 48 then (3 * i + 5) % 16
  else (7 * i) % 16

def md5Step (m : Nat → Nat) (st : Nat × Nat × Nat × Nat) (i : Nat) :
    Nat × Nat × Nat × Nat :=
  let t := (st.1 + md5F i st.2.1 st.2.2.1 st.2.2.2 + md5K.getD i 0 + m (md5G i)) % 2 ^ 32
  let b' := (st.2.1 + rotl32 t (md5Shifts.getD i 0)) % 2 ^ 32
  (st.2.2.2, b', st.2.1, st.2.2.1)

def wordLE (b0 b1 b2 b3 : Nat) : Nat := b0 + b1 * 256 + b2 * 65536 + b3 * 16777216

def blockWords : List Nat → List Nat
  | b0 :: b1 :: b2 :: b3 :: rest => wordLE b0 b1 b2 b3 :: blockWords rest
  | _ => []

def md5Block (st : Nat × Nat × Nat × Nat) (block : List Nat) : Nat × Nat × Nat × Nat :=
  let ws := blockWords block
  let r := (List.range 64).foldl (md5Step (fun g => ws.getD g 0)) st
  ((st.1 + r.1) % 2 ^ 32, (st.2.1 + r.2.1) % 2 ^ 32,
   (st.2.2.1 + r.2.2.1) % 2 ^ 32, (st.2.2.2 + r.2.2.2) % 2 ^ 32)

/-- Split into 64-byte blocks; the fuel argument (any bound on the
length) keeps the recursion structural. -/
def chunksGo : Nat → List Nat → List (List Nat)
  | 0, _ => []
  | _ + 1, [] => []
  | fuel + 1, l => l.take 64 :: chunksGo fuel (l.drop 64)

def md5Pad (msg : List Nat) : List Nat :=
  let bitLen := (msg.length * 8) % 2 ^ 64
  let padZeros := (119 - (msg.length % 64)) % 64
  msg ++ [0x80] ++ List.replicate padZeros 0 ++
    [bitLen % 256, (bitLen >>> 8) % 256, (bitLen >>> 16) % 256, (bitLen >>> 24) % 256,
     (bitLen >>> 32) % 256, (bitLen >>> 40) % 256, (bitLen >>> 48) % 256, (bitLen >>> 56) % 256]

/-- Little-endian bytes of a 32-bit word. -/
def wordBytes (w : Nat) : List Nat :=
  [w % 256, (w >>> 8) % 256, (w >>> 16) % 256, (w >>> 24) % 256]

def md5Digest (msg : List Nat) : List Nat :=
  let padded := md5Pad msg
  let st := (chunksGo padded.length padded).foldl md5Block
    (0x67452301, 0xefcdab89, 0x98badcfe, 0x10325476)
  wordBytes st.1 ++ wordBytes st.2.1 ++ wordBytes st.2.2.1 ++ wordBytes st.2.2.2

def hexDigitChar (n : Nat) : Char := "0123456789abcdef".data.getD n 'f'

def bytesToHex : List Nat → List Char
  | [] => []
  | b :: rest => hexDigitChar (b / 16) :: hexDigitChar (b % 16) :: bytesToHex rest

/-- UTF-8 encoding of one code point, as Python `str.encode()`. -/
def utf8Bytes (c : Nat) : List Nat :=
  if c < 0x80 then [c]
  else if c < 0x800 then [0xc0 + c / 64, 0x80 + c % 64]
  else if c < 0x10000 then [0xe0 + c / 4096, 0x80 + (c / 64) % 64, 0x80 + c % 64]
  else [0xf0 + c / 262144, 0x80 + (c / 4096) % 64, 0x80 + (c / 64) % 64, 0x80 + c % 64]

def strBytes (s : String) : List Nat := s.data.flatMap (fun c => utf8Bytes c.toNat)

/-- `hashlib.md5(s.encode()).hexdigest()`. -/
def md5hex (s : String) : String := ⟨bytesToHex (md5Digest (strBytes s))⟩

theorem hexDigitChar_ne_colon (n : Nat) : hexDigitChar n ≠ ':' := by
  unfold hexDigitChar
  rcases lt_or_ge n 16 with h | h
  · interval_cases n <;> decide
  · rw [List.getD_eq_default _ _ (by simpa using h)]
    decide

theorem bytesToHex_colon_free (bs : List Nat) : ∀ ch ∈ bytesToHex bs, ch ≠ ':' := by
  induction bs with
  | nil => simp [bytesToHex]
  | cons b rest ih =>
    intro ch hch
    simp only [bytesToHex, List.mem_cons] at hch
    rcases hch with rfl | rfl | h
    · exact hexDigitChar_ne_colon _
    · exact hexDigitChar_ne_colon _
    · exact ih ch h

theorem md5hex_colon_free (s : String) : ∀ ch ∈ (md5hex s).data, ch ≠ ':' :=
  bytesToHex_colon_free (md5Digest (strBytes s))

/-! ## Cache keys (`tile_service.py` lines 189–191)

`get_dynamic_tile` builds
`cache_key = f"dyn:{url_hash}:{z}:{x}:{y}:e{enhance}:l{labels}:c{confidence_threshold}:q{quality}"`
where `url_hash = hashlib.md5(image_url.encode()).hexdigest()`.
Integer fields are formatted in decimal (`natStrChars`), booleans as
Python `str(bool)` (`True`/`False`), and the confidence threshold as
its float `repr` — passed in here as a string, since Python's float
`repr` is injective on floats and never contains a colon. -/

def digitsLE : Nat → Nat → List Nat
  | 0, _ => []
  | _ + 1, 0 => []
  | fuel + 1, n => n % 10 :: digitsLE fuel (n / 10)

/-- Decimal representation of a natural number (Python `f"{n}"`). -/
def natStrChars (n : Nat) : List Char :=
  if n = 0 then ['0'] else ((digitsLE n n).map hexDigitChar).reverse

def decValLE : List Nat → Nat
  | [] => 0
  | d :: ds => d + 10 * decValLE ds

theorem digitsLE_val : ∀ fuel n, n ≤ fuel → decValLE (digitsLE fuel n) = n := by
  intro fuel
  induction fuel with
  | zero =>
    intro n h
    have : n = 0 := by omega
    subst this
    rfl
  | succ f ih =>
    intro n h
    cases n with
    | zero => rfl
    | succ m =>
      simp only [digitsLE, decValLE]
      rw [ih ((m + 1) / 10) (by
        have := Nat.div_lt_self (Nat.succ_pos m) (by norm_num : 1 < 10)
        omega)]
      exact Nat.mod_add_div (m + 1) 10

theorem digitsLE_lt10 : ∀ fuel n d, d ∈ digitsLE fuel n → d < 10 := by
  intro fuel
  induction fuel with
  | zero => intro n d h; simp [digitsLE] at h
  | succ f ih =>
    intro n d h
    cases n with
    | zero => simp [digitsLE] at h
    | succ m =>
      simp only [digitsLE, List.mem_cons] at h
      rcases h with rfl | h
      · exact Nat.mod_lt _ (by norm_num)
      · exact ih _ _ h

def digitVal (c : Char) : Nat :=
  if c = '0' then 0 else if c = '1' then 1 else if c = '2' then 2 else if c = '3' then 3
  else if c = '4' then 4 else if c = '5' then 5 else if c = '6' then 6 else if c = '7' then 7
  else if c = '8' then 8 else 9

def strDecVal (cs : List Char) : Nat := cs.foldl (fun acc c => acc * 10 + digitVal c) 0

theorem digitVal_hexDigitChar : ∀ d, d < 10 → digitVal (hexDigitChar d) = d := by decide

theorem foldl_digits (ds : List Nat) : ∀ acc, (∀ d ∈ ds, d < 10) →
    ((ds.map hexDigitChar).reverse).foldl (fun acc c => acc * 10 + digitVal c) acc =
      acc * 10 ^ ds.length + decValLE ds := by
  induction ds with
  | nil => intro acc h; simp [decValLE]
  | cons d rest ih =>
    intro acc h
    simp only [List.map_cons, List.reverse_cons, List.foldl_append, List.foldl_cons,
      List.foldl_nil]
    rw [ih acc (fun x hx => h x (List.mem_cons_of_mem d hx))]
    rw [digitVal_hexDigitChar d (h d (List.mem_cons_self d rest))]
    simp only [decValLE, List.length_cons]
    ring

theorem natStrChars_val (n : Nat) : strDecVal (natStrChars n) = n := by
  unfold natStrChars strDecVal
  by_cases h : n = 0
  · subst h
    decide
  · rw [if_neg h, foldl_digits _ 0 (fun d hd => digitsLE_lt10 n n d hd)]
    rw [digitsLE_val n n le_rfl]
    ring

theorem natStrChars_inj {m n : Nat} (h : natStrChars m = natStrChars n) : m = n := by
  have hm := natStrChars_val m
  rw [h, natStrChars_val n] at hm
  omega

theorem natStrChars_colon_free (n : Nat) : ∀ ch ∈ natStrChars n, ch ≠ ':' := by
  unfold natStrChars
  by_cases h : n = 0
  · subst h; decide
  · rw [if_neg h]
    intro ch hch
    rw [List.mem_reverse] at hch
    obtain ⟨d, -, rfl⟩ := List.mem_map.mp hch
    exact hexDigitChar_ne_colon d

/-- Python `str(bool)`. -/
def pyBoolChars : Bool → List Char
  | true => ['T', 'r', 'u', 'e']
  | false => ['F', 'a', 'l', 's', 'e']

theorem pyBoolChars_inj {a b : Bool} (h : pyBoolChars a = pyBoolChars b) : a = b := by
  cases a <;> cases b <;> first | rfl | (exact absurd h (by decide))

theorem pyBoolChars_colon_free (b : Bool) : ∀ ch ∈ pyBoolChars b, ch ≠ ':' := by
  cases b <;> decide

/-- The characters of the dynamic cache key
`f"dyn:{digest}:{z}:{x}:{y}:e{enhance}:l{labels}:c{conf}:q{quality}"`,
written in right-nested form. -/
def dynCacheKeyChars (digest : List Char) (z x y : Nat) (e l : Bool)
    (conf : List Char) (q : Nat) : List Char :=
  'd' :: 'y' :: 'n' :: ':' ::
    (digest ++ ':' ::
      (natStrChars z ++ ':' ::
        (natStrChars x ++ ':' ::
          (natStrChars y ++ ':' ::
            ('e' :: pyBoolChars e ++ ':' ::
              ('l' :: pyBoolChars l ++ ':' ::
                ('c' :: conf ++ ':' :: 'q' :: natStrChars q)))))))

/-- The cache key of `get_dynamic_tile` (tile_service.py lines 189–191)
as a function of the raw URL. -/
def dynCacheKey (url : String) (z x y : Nat) (e l : Bool) (conf : String)
    (q : Nat) : String :=
  ⟨dynCacheKeyChars (md5hex url).data z x y e l conf.data q⟩

/-- Peeling a colon-joined encoding: two colon-free segments followed by
a colon determine each other. -/
theorem colon_peel : ∀ a b u v : List Char, (∀ ch ∈ a, ch ≠ ':') → (∀ ch ∈ b, ch ≠ ':') →
    a ++ ':' :: u = b ++ ':' :: v → a = b ∧ u = v := by
  intro a
  induction a with
  | nil =>
    intro b u v _ hb h
    cases b with
    | nil => simpa using h
    | cons c b' =>
      simp only [List.nil_append, List.cons_append, List.cons.injEq] at h
      exact absurd h.1.symm (hb c (List.mem_cons_self c b'))
  | cons c a' ih =>
    intro b u v ha hb h
    cases b with
    | nil =>
      simp only [List.cons_append, List.nil_append, List.cons.injEq] at h
      exact absurd h.1 (ha c (List.mem_cons_self c a'))
    | cons c' b' =>
      simp only [List.cons_append, List.cons.injEq] at h
      obtain ⟨rfl, h⟩ := h
      obtain ⟨h1, h2⟩ := ih b' u v (fun x hx => ha x (List.mem_cons_of_mem c hx))
        (fun x hx => hb x (List.mem_cons_of_mem c hx)) h
      exact ⟨by rw [h1], h2⟩

theorem econs_colon_free (e : Bool) : ∀ ch ∈ 'e' :: pyBoolChars e, ch ≠ ':' := by
  cases e <;> decide

theorem lcons_colon_free (l : Bool) : ∀ ch ∈ 'l' :: pyBoolChars l, ch ≠ ':' := by
  cases l <;> decide

/-- C6 amended.  Two dynamic tile addresses produce the same cache key
iff their sourceRef MD5 digests agree and all remaining fields agree:
the encoding is canonical over `z, x, y, enhance, labels,
confidenceThreshold, quality` (any difference there changes the key),
but it is only collision-free in `sourceRef` up to MD5 collisions —
see the counterexample `cache_key_collision`.  `c₁, c₂` are the
formatted confidence thresholds (Python float `repr`, which is
injective on floats and never contains a colon — the hypotheses). -/
theorem dynCacheKey_eq_iff (u₁ u₂ c₁ c₂ : String) (z₁ z₂ x₁ x₂ y₁ y₂ q₁ q₂ : Nat)
    (e₁ e₂ l₁ l₂ : Bool)
    (hc₁ : ∀ ch ∈ c₁.data, ch ≠ ':') (hc₂ : ∀ ch ∈ c₂.data, ch ≠ ':') :
    dynCacheKey u₁ z₁ x₁ y₁ e₁ l₁ c₁ q₁ = dynCacheKey u₂ z₂ x₂ y₂ e₂ l₂ c₂ q₂ ↔
      (md5hex u₁ = md5hex u₂ ∧ z₁ = z₂ ∧ x₁ = x₂ ∧ y₁ = y₂ ∧
        e₁ = e₂ ∧ l₁ = l₂ ∧ c₁ = c₂ ∧ q₁ = q₂) := by
  constructor
  · intro h
    have hl := congrArg String.data h
    unfold dynCacheKey at hl
    dsimp only at hl
    unfold dynCacheKeyChars at hl
    injection hl with _ hl
    injection hl with _ hl
    injection hl with _ hl
    injection hl with _ hl
    obtain ⟨hdig, hl⟩ := colon_peel _ _ _ _ (md5hex_colon_free u₁) (md5hex_colon_free u₂) hl
    obtain ⟨hz, hl⟩ := colon_peel _ _ _ _ (natStrChars_colon_free z₁)
      (natStrChars_colon_free z₂) hl
    obtain ⟨hx, hl⟩ := colon_peel _ _ _ _ (natStrChars_colon_free x₁)
      (natStrChars_colon_free x₂) hl
    obtain ⟨hy, hl⟩ := colon_peel _ _ _ _ (natStrChars_colon_free y₁)
      (natStrChars_colon_free y₂) hl
    obtain ⟨he, hl⟩ := colon_peel _ _ _ _ (econs_colon_free e₁) (econs_colon_free e₂) hl
    obtain ⟨hlb, hl⟩ := colon_peel _ _ _ _ (lcons_colon_free l₁) (lcons_colon_free l₂) hl
    obtain ⟨hcc, hl⟩ := colon_peel ('c' :: c₁.data) ('c' :: c₂.data) _ _
      (by intro ch hch
          rcases List.mem_cons.mp hch with rfl | hm
          · decide
          · exact hc₁ ch hm)
      (by intro ch hch
          rcases List.mem_cons.mp hch with rfl | hm
          · decide
          · exact hc₂ ch hm) hl
    injection hl with _ hq
    injection he with _ he
    injection hlb with _ hlb
    injection hcc with _ hcc
    exact ⟨String.ext hdig, natStrChars_inj hz, natStrChars_inj hx, natStrChars_inj hy,
      pyBoolChars_inj he, pyBoolChars_inj hlb, String.ext hcc, natStrChars_inj hq⟩
  · rintro ⟨hu, rfl, rfl, rfl, rfl, rfl, rfl, rfl⟩
    unfold dynCacheKey
    rw [hu]

/-- Witness for the amended C6 at concrete arguments (confidence reprs
are colon-free, discharged by `decide`). -/
theorem dynCacheKey_eq_iff_witness :
    dynCacheKey "urlA" 1 2 3 true false "0.5" 90 =
        dynCacheKey "urlB" 1 2 3 true false "0.25" 85 ↔
      (md5hex "urlA" = md5hex "urlB" ∧ 1 = 1 ∧ 2 = 2 ∧ 3 = 3 ∧
        true = true ∧ false = false ∧ ("0.5" : String) = "0.25" ∧ 90 = 85) :=
  dynCacheKey_eq_iff "urlA" "urlB" "0.5" "0.25" 1 1 2 2 3 3 90 85 true true false false
    (by decide) (by decide)

/-- Marc Stevens' 2023 ASCII MD5 collision pair: two 72-byte printable
strings differing in one character with identical MD5 digests. -/
def textColl1 : String := "TEXTCOLLBYfGiJUETHQ4hAcKSMd5zYpgqf1YRDhkmxHkhPWptrkoyz28wnI9V0aHeAuaKnak"

def textColl2 : String := "TEXTCOLLBYfGiJUETHQ4hEcKSMd5zYpgqf1YRDhkmxHkhPWptrkoyz28wnI9V0aHeAuaKnak"

set_option maxRecDepth 200000 in
/-- C6 counterexample.  Two distinct source references whose MD5 digests
collide produce the exact same dynamic-tile cache key for the same
`(z, x, y, enhance, labels, confidenceThreshold, quality)` — the cache
key encoding is not collision-free over distinct tile addresses. -/
theorem cache_key_collision :
    textColl1 ≠ textColl2 ∧
    dynCacheKey textColl1 5 1 2 true false "0.5" 90 =
      dynCacheKey textColl2 5 1 2 true false "0.5" 90 := by
  refine ⟨by decide, ?_⟩
  have h : md5Digest (strBytes textColl1) = md5Digest (strBytes textColl2) := by decide
  unfold dynCacheKey md5hex
  rw [h]

/-! ## Source image pool and resolver (`tile_service.py`, `_get_full_image`)

`_get_full_image` (lines 258–321) resolves NASA thumbnail URLs to
originals, fetches the image, and keeps decoded images in
`self.source_image_cache`.  The pool mutation (lines 300–304) is

    if len(self.source_image_cache) > 3:
        self.source_image_cache.pop(next(iter(self.source_image_cache)))
    self.source_image_cache[actual_url] = image

— evict the oldest-inserted entry when the pool already holds more than
3 images, then insert.  Images are abstract (`α`). -/

def poolInsert {α : Type} (pool : List (String × α)) (k : String) (v : α) :
    List (String × α) :=
  dictSet (if pool.length > 3 then pool.tail else pool) k v

/-- C7 counterexample.  Inserting four distinct references into an empty
pool leaves all four in the pool: after the fourth insertion the pool
holds 4 decoded images, not at most 3 (the eviction check `len > 3`
runs before the insert, so the capacity is off by one). -/
theorem pool_capacity_counterexample :
    (poolInsert (poolInsert (poolInsert (poolInsert ([] : List (String × Nat))
      "a" 0) "b" 1) "c" 2) "d" 3).length = 4 ∧ ¬ (4 ≤ 3) := by
  decide

/-- C7 amended.  After every insertion of a fresh reference the pool
contains at most **4** decoded images (the eviction triggers only when
the pool already exceeds 3 entries before the insert), and the entry
evicted on overflow is the oldest-inserted one — insertion-order
eviction, not access-order LRU: on overflow the result is literally the
pool minus its head (its oldest entry) with the new entry appended. -/
theorem pool_insert_bound {α : Type} (pool : List (String × α)) (k : String) (v : α)
    (hlen : pool.length ≤ 4) (hnew : pool.lookup k = none) :
    (poolInsert pool k v).length ≤ 4 ∧
    (poolInsert pool k v).lookup k = some v ∧
    (3 < pool.length → poolInsert pool k v = pool.tail ++ [(k, v)]) := by
  unfold poolInsert
  by_cases hgt : pool.length > 3
  · rw [if_pos hgt]
    have htail : pool.tail.lookup k = none := lookup_tail_of_lookup_none pool k hnew
    rw [dictSet_of_lookup_none _ k v htail]
    refine ⟨?_, ?_, fun _ => rfl⟩
    · simp only [List.length_append, List.length_tail, List.length_cons, List.length_nil]
      omega
    · rw [lookup_append_of_lookup_none _ _ k htail]
      simp [List.lookup]
  · rw [if_neg hgt]
    rw [dictSet_of_lookup_none _ k v hnew]
    refine ⟨?_, ?_, fun hc => absurd hc hgt⟩
    · simp only [List.length_append, List.length_cons, List.length_nil]
      omega
    · rw [lookup_append_of_lookup_none _ _ k hnew]
      simp [List.lookup]

/-- Witness for the amended C7: a full pool of 4 entries accepting a
fresh fifth reference. -/
theorem pool_insert_bound_witness :
    (poolInsert [("a", 0), ("b", 1), ("c", 2), ("d", 3)] "e" (4 : Nat)).length ≤ 4 ∧
    (poolInsert [("a", 0), ("b", 1), ("c", 2), ("d", 3)] "e" (4 : Nat)).lookup "e" =
      some 4 ∧
    (3 < ([("a", 0), ("b", 1), ("c", 2), ("d", 3)] : List (String × Nat)).length →
      poolInsert [("a", 0), ("b", 1), ("c", 2), ("d", 3)] "e" (4 : Nat) =
        [("a", 0), ("b", 1), ("c", 2), ("d", 3)].tail ++ [("e", 4)]) :=
  pool_insert_bound [("a", 0), ("b", 1), ("c", 2), ("d", 3)] "e" 4 (by decide) (by decide)

/-! ### Resolver (`_get_full_image`, lines 258–321)

String helpers mirror the Python predicates:
`"nasa.gov" in url and ("~thumb" in url or "~mobile" in url)` (line
262), `url.split('/')` with the first `parts[i] == 'image'` followed by
`parts[i+1]` (lines 266–271), and the candidate filter
`"~orig" in l and l.lower().endswith(('.jpg', '.jpeg', '.png'))`
(line 280). -/

def listHasPrefix : List Char → List Char → Bool
  | [], _ => true
  | _ :: _, [] => false
  | p :: ps, c :: cs => p = c && listHasPrefix ps cs

def listHasInfix (p l : List Char) : Bool :=
  match l with
  | [] => p.isEmpty
  | _ :: rest => listHasPrefix p l || listHasInfix p rest

def listHasSuffix (p l : List Char) : Bool := listHasPrefix p.reverse l.reverse

def lowerChars (l : List Char) : List Char := l.map Char.toLower

/-- Line 262: `"nasa.gov" in url and ("~thumb" in url or "~mobile" in url)`. -/
def isNasaThumb (url : String) : Bool :=
  listHasInfix "nasa.gov".data url.data &&
    (listHasInfix "~thumb".data url.data || listHasInfix "~mobile".data url.data)

def splitChar (sep : Char) : List Char → List (List Char)
  | [] => [[]]
  | c :: rest =>
    match splitChar sep rest with
    | h :: t => if c = sep then [] :: h :: t else (c :: h) :: t
    | [] => if c = sep then [[], []] else [[c]]

/-- Lines 266–271: find the first part equal to `"image"` that has a
successor part, and return that successor (the NASA id). -/
def findImagePart : List (List Char) → Option (List Char)
  | [] => none
  | [_] => none
  | p :: q :: rest => if p = "image".data then some q else findImagePart (q :: rest)

def extractNasaId (url : String) : Option String :=
  (findImagePart (splitChar '/' url.data)).map fun cs => ⟨cs⟩

/-- Line 280: pick the first asset link marked `~orig` with a supported
raster extension. -/
def pickOrig (links : List String) : Option String :=
  links.find? fun l =>
    listHasInfix "~orig".data l.data &&
      (listHasSuffix ".jpg".data (lowerChars l.data) ||
       listHasSuffix ".jpeg".data (lowerChars l.data) ||
       listHasSuffix ".png".data (lowerChars l.data))

/-- Outcome of one HTTP GET of an image URL inside `_get_full_image`:
HTTP 200 with a decodable body, a non-200 status code, an
`httpx.TimeoutException`, or any other exception (connection failure,
body that cannot be decoded, ...) which the final generic `except`
(lines 319–321) turns into `None` with **no** fallback. -/
inductive FetchOutcome (α : Type) where
  | ok (img : α)
  | httpError
  | timeout
  | exn

/-- Environment of the resolver: `assetLinks id` is the outcome of
`GET https://images-api.nasa.gov/asset/{id}` (`none` when the call
raises, returns non-200 or unparsable JSON; `some links` the collection
items on HTTP 200), and `fetch u` the outcome of `GET u`.  Outcomes are
fixed per target, a definite sequence of fetch outcomes in the claim's
sense. -/
structure ResolverEnv (α : Type) where
  assetLinks : String → Option (List String)
  fetch : String → FetchOutcome α

/-- Lines 261–285: resolve a NASA thumbnail URL to its original; on any
lookup failure keep the provided URL. -/
def resolveUrl {α : Type} (env : ResolverEnv α) (url : String) : String :=
  if isNasaThumb url then
    match extractNasaId url with
    | some nasaId =>
      match env.assetLinks nasaId with
      | some links =>
        match pickOrig links with
        | some orig => orig
        | none => url
      | none => url
    | none => url
  else url

/-- Embedding of `_get_full_image` (tile_service.py lines 258–321).
`fuel` bounds the recursion depth — the Python source has no such bound
— and the result `none` means the recursion exhausted every allowed
depth (non-termination in the unbounded source); `some (res, pool)` is
normal termination with the `Optional[Image]` result and the updated
source-image pool.  One level does: resolve the URL (261–285), check
the pool (287–288), fetch (294); on HTTP 200 insert into the pool and
return the image (295–305); on a non-200 status or a timeout, when the
fetched URL differs from the unresolved one, fall back by re-invoking
`_get_full_image` on the unresolved URL (306–318); any other exception
returns `None` (319–321). -/
def getFullImage {α : Type} (env : ResolverEnv α) :
    Nat → List (String × α) → String → Option (Option α × List (String × α))
  | 0, _, _ => none
  | fuel + 1, pool, url =>
    let actualUrl := resolveUrl env url
    match pool.lookup actualUrl with
    | some img => some (some img, pool)
    | none =>
      match env.fetch actualUrl with
      | .ok img => some (some img, poolInsert pool actualUrl img)
      | .httpError =>
        if actualUrl ≠ url then getFullImage env fuel pool url
        else some (none, pool)
      | .timeout =>
        if actualUrl ≠ url then getFullImage env fuel pool url
        else some (none, pool)
      | .exn => some (none, pool)

/-- A NASA thumbnail URL and an environment in which the asset lookup
always succeeds, returning an `~orig` candidate, and fetching that
original always fails with a non-200 status. -/
def thumbUrl : String :=
  "https://images-assets.nasa.gov/image/PIA00001/PIA00001~thumb.jpg"

def origUrl : String :=
  "https://images-assets.nasa.gov/image/PIA00001/PIA00001~orig.jpg"

def loopEnv : ResolverEnv Nat :=
  { assetLinks := fun _ => some [origUrl]
    fetch := fun _ => .httpError }

/-- C1 — the fallback is **not** bounded to one hop.  Under `loopEnv`
(lookup keeps succeeding, fetching the resolved original keeps failing)
`_get_full_image` on the thumbnail URL re-resolves and re-fetches the
original at every level and never terminates: the recursion exhausts
every fuel bound.  (In CPython the recursion instead dies at the
interpreter recursion limit after ~1000 lookup+fetch pairs; either way,
the unresolved reference is never fetched and the procedure does not
fall back exactly once.) -/
theorem getFullImage_unbounded_recursion :
    ∀ fuel : Nat, getFullImage loopEnv fuel [] thumbUrl = none := by
  have hres : resolveUrl loopEnv thumbUrl = origUrl := by decide
  have hne : origUrl ≠ thumbUrl := by decide
  intro fuel
  induction fuel with
  | zero => rfl
  | succ n ih =>
    show getFullImage loopEnv (n + 1) [] thumbUrl = none
    unfold getFullImage
    rw [hres]
    simp only [List.lookup]
    show (if origUrl ≠ thumbUrl then getFullImage loopEnv n [] thumbUrl
      else some (none, [])) = none
    rw [if_pos hne]
    exact ih

/-! ## Enhancement steps and the dynamic tile pipeline
(`ml_service.py` and `tile_service.py`, `get_dynamic_tile`)

Each enhancement call wraps its body in `try/except` and returns the
input image on any exception.  The bodies (torch / Real-ESRGAN / cv2 /
PIL drawing) are modelled as oracle functions returning `none` exactly
when the body raises. -/

structure MLEnv (α : Type) where
  srBody : α → Option α
  dnBody : α → Option α
  lbBody : α → ℚ → Option α

/-- Embedding of `MLService.super_resolve` (ml_service.py lines
108–131): the try-body (Real-ESRGAN, or the Lanczos+UnsharpMask
fallback path) either produces an image or raises; the `except` returns
the input image unchanged. -/
def superResolve {α : Type} (ml : MLEnv α) (img : α) : α := (ml.srBody img).getD img

/-- Embedding of `MLService.denoise` (lines 133–148): bilateral filter
or the input image on exception. -/
def denoise {α : Type} (ml : MLEnv α) (img : α) : α := (ml.dnBody img).getD img

/-- Embedding of `MLService.add_labels` (lines 150–175): feature
detection and drawing happen on a copy; on exception the original input
image is returned. -/
def addLabels {α : Type} (ml : MLEnv α) (img : α) (conf : ℚ) : α :=
  (ml.lbBody img conf).getD img

/-- Environment of `get_dynamic_tile`: the resolver outcome
(`_get_full_image(url)` abstracted to its result, an image with its
size, `none` on failure — its internals are modelled separately by
`getFullImage`), PIL `crop`/`resize`, JPEG encoding at a quality
(`save(format='JPEG', quality=q)`), and Python's float `repr` used when
the confidence threshold is interpolated into the cache key. -/
structure TileEnv (α : Type) where
  ml : MLEnv α
  fullImage : Option (α × Nat × Nat)
  crop : α → ℤ × ℤ × ℤ × ℤ → α
  resize : α → ℤ × ℤ → α
  encode : α → Nat → List Nat
  floatRepr : ℚ → String

/-- Embedding of `TileService.get_dynamic_tile` (tile_service.py lines
161–256): load the full image (None on failure → None), build the cache
key, return a cached entry if present, compute the crop plan (None when
out of bounds), crop (with `int()`-truncated box coordinates, line 220)
and resize, optionally enhance (super-resolve then denoise) and label,
encode as JPEG at `quality`, store in the cache, return the bytes. -/
def get_dynamic_tile {α : Type} (env : TileEnv α) (cache : CacheState) (url : String)
    (z x y : Nat) (enhance labels : Bool) (conf : ℚ) (quality : Nat) :
    Option (List Nat) × CacheState :=
  match env.fullImage with
  | none => (none, cache)
  | some (img, w, h) =>
    let key := dynCacheKey url z x y enhance labels (env.floatRepr conf) quality
    match getTile cache key with
    | some cached => (some cached, cache)
    | none =>
      match cropPlanQ w h z x y with
      | none => (none, cache)
      | some p =>
        let cropped := env.crop img (pyInt p.left, pyInt p.top, pyInt p.right, pyInt p.bottom)
        let tile0 := env.resize cropped (p.outW, p.outH)
        let tile1 := if enhance then denoise env.ml (superResolve env.ml tile0) else tile0
        let tile2 := if labels then addLabels env.ml tile1 conf else tile1
        let data := env.encode tile2 quality
        (some data, setTile cache key data)

/-- Embedding of the route `GET /proxy/tile` (tiles.py lines 84–120,
`get_proxy_tile`): it accepts `quality` (line 93) but does **not** pass
it to `get_dynamic_tile` (lines 100–108), so the service applies its
default `quality = 90`. -/
def get_proxy_tile {α : Type} (env : TileEnv α) (cache : CacheState) (url : String)
    (z x y : Nat) (enhance labels : Bool) (conf : ℚ) (quality : Nat) :
    Option (List Nat) × CacheState :=
  get_dynamic_tile env cache url z x y enhance labels conf 90

/-- C4 — enhancement failures are swallowed.  When every enhancement
body raises, each step returns its pre-enhancement input image
(`super_resolve`, `denoise`, `add_labels`), and a cache-missed in-range
dynamic tile request with `enhance=labels=true` still delivers the
encoded pre-enhancement tile — an enhancement failure never fails tile
delivery. -/
theorem enhancement_failure_swallowed {α : Type} (env : TileEnv α) (cache : CacheState)
    (url : String) (z x y : Nat) (conf : ℚ) (q w h : Nat) (img : α) (p : CropPlan)
    (hsrc : env.fullImage = some (img, w, h))
    (hmiss : getTile cache (dynCacheKey url z x y true true (env.floatRepr conf) q) = none)
    (hcrop : cropPlanQ w h z x y = some p)
    (hsr : ∀ a, env.ml.srBody a = none) (hdn : ∀ a, env.ml.dnBody a = none)
    (hlb : ∀ a c, env.ml.lbBody a c = none) :
    (∀ a, superResolve env.ml a = a) ∧ (∀ a, denoise env.ml a = a) ∧
    (∀ a c, addLabels env.ml a c = a) ∧
    (get_dynamic_tile env cache url z x y true true conf q).1 =
      some (env.encode (env.resize (env.crop img
        (pyInt p.left, pyInt p.top, pyInt p.right, pyInt p.bottom))
        (p.outW, p.outH)) q) := by
  have hsr' : ∀ a, superResolve env.ml a = a := fun a => by
    unfold superResolve; rw [hsr a]; rfl
  have hdn' : ∀ a, denoise env.ml a = a := fun a => by
    unfold denoise; rw [hdn a]; rfl
  have hlb' : ∀ a c, addLabels env.ml a c = a := fun a c => by
    unfold addLabels; rw [hlb a c]; rfl
  refine ⟨hsr', hdn', hlb', ?_⟩
  unfold get_dynamic_tile
  rw [hsrc]
  simp only [hmiss, hcrop, if_true, hsr', hdn', hlb']

/-- Environments for the pipeline witnesses: every enhancement body
raises; the source is a 300×200 image; crop and resize are projections;
the encoder tags the image with the quality used. -/
def mlFailEnv : MLEnv Nat := ⟨fun _ => none, fun _ => none, fun _ _ => none⟩

def tileEnvW : TileEnv Nat :=
  ⟨mlFailEnv, some (7, 300, 200), fun a _ => a, fun a _ => a, fun a q => [a, q],
    fun _ => "0.5"⟩

def emptyCache : CacheState := ⟨false, false, [], []⟩

/-- Witness for C4: concrete failing enhancement environment; the tile
request still returns the encoded pre-enhancement image `[7, 85]`. -/
theorem enhancement_failure_swallowed_witness :
    (∀ a, superResolve tileEnvW.ml a = a) ∧ (∀ a, denoise tileEnvW.ml a = a) ∧
    (∀ a c, addLabels tileEnvW.ml a c = a) ∧
    (get_dynamic_tile tileEnvW emptyCache "u" 9 0 0 true true (1/2) 85).1 =
      some (tileEnvW.encode (tileEnvW.resize (tileEnvW.crop 7
        (pyInt (scaleUp 9 ⟨0, 0, 131072, 102400, 256, 200⟩).left,
         pyInt (scaleUp 9 ⟨0, 0, 131072, 102400, 256, 200⟩).top,
         pyInt (scaleUp 9 ⟨0, 0, 131072, 102400, 256, 200⟩).right,
         pyInt (scaleUp 9 ⟨0, 0, 131072, 102400, 256, 200⟩).bottom))
        ((scaleUp 9 ⟨0, 0, 131072, 102400, 256, 200⟩).outW,
         (scaleUp 9 ⟨0, 0, 131072, 102400, 256, 200⟩).outH)) 85) :=
  enhancement_failure_swallowed tileEnvW emptyCache "u" 9 0 0 (1/2) 85 300 200 7
    (scaleUp 9 ⟨0, 0, 131072, 102400, 256, 200⟩) rfl rfl
    (by rw [cropPlanQ_eq_N,
        show cropPlanN 300 200 9 0 0 = some ⟨0, 0, 131072, 102400, 256, 200⟩
          from by decide, Option.map_some'])
    (fun _ => rfl) (fun _ => rfl) (fun _ _ => rfl)

/-- C8 — the requested quality is ignored by the proxy route.  For every
requested quality `q ∈ [1,100]`, a cache-missed in-range proxy tile
request delivers bytes encoded at quality **90** (the service default),
because the route does not forward its `quality` parameter. -/
theorem proxy_quality_ignored {α : Type} (env : TileEnv α) (cache : CacheState)
    (url : String) (z x y : Nat) (conf : ℚ) (q w h : Nat) (img : α) (p : CropPlan)
    (hq1 : 1 ≤ q) (hq2 : q ≤ 100)
    (hsrc : env.fullImage = some (img, w, h))
    (hmiss : getTile cache (dynCacheKey url z x y false false (env.floatRepr conf) 90) = none)
    (hcrop : cropPlanQ w h z x y = some p) :
    (get_proxy_tile env cache url z x y false false conf q).1 =
      some (env.encode (env.resize (env.crop img
        (pyInt p.left, pyInt p.top, pyInt p.right, pyInt p.bottom))
        (p.outW, p.outH)) 90) := by
  unfold get_proxy_tile get_dynamic_tile
  rw [hsrc]
  simp only [hmiss, hcrop, if_false, Bool.false_eq_true]

/-- Witness for C8: requesting quality 50 delivers `[7, 90]` — bytes
encoded at quality 90, not the quality-50 encoding `[7, 50]`. -/
theorem proxy_quality_ignored_witness :
    (get_proxy_tile tileEnvW emptyCache "u" 9 0 0 false false (1/2) 50).1 =
      some (tileEnvW.encode (tileEnvW.resize (tileEnvW.crop 7
        (pyInt (scaleUp 9 ⟨0, 0, 131072, 102400, 256, 200⟩).left,
         pyInt (scaleUp 9 ⟨0, 0, 131072, 102400, 256, 200⟩).top,
         pyInt (scaleUp 9 ⟨0, 0, 131072, 102400, 256, 200⟩).right,
         pyInt (scaleUp 9 ⟨0, 0, 131072, 102400, 256, 200⟩).bottom))
        ((scaleUp 9 ⟨0, 0, 131072, 102400, 256, 200⟩).outW,
         (scaleUp 9 ⟨0, 0, 131072, 102400, 256, 200⟩).outH)) 90) ∧
    some (tileEnvW.encode (tileEnvW.resize (tileEnvW.crop 7
        (pyInt (scaleUp 9 ⟨0, 0, 131072, 102400, 256, 200⟩).left,
         pyInt (scaleUp 9 ⟨0, 0, 131072, 102400, 256, 200⟩).top,
         pyInt (scaleUp 9 ⟨0, 0, 131072, 102400, 256, 200⟩).right,
         pyInt (scaleUp 9 ⟨0, 0, 131072, 102400, 256, 200⟩).bottom))
        ((scaleUp 9 ⟨0, 0, 131072, 102400, 256, 200⟩).outW,
         (scaleUp 9 ⟨0, 0, 131072, 102400, 256, 200⟩).outH)) 90) ≠
      some (tileEnvW.encode (tileEnvW.resize (tileEnvW.crop 7
        (pyInt (scaleUp 9 ⟨0, 0, 131072, 102400, 256, 200⟩).left,
         pyInt (scaleUp 9 ⟨0, 0, 131072, 102400, 256, 200⟩).top,
         pyInt (scaleUp 9 ⟨0, 0, 131072, 102400, 256, 200⟩).right,
         pyInt (scaleUp 9 ⟨0, 0, 131072, 102400, 256, 200⟩).bottom))
        ((scaleUp 9 ⟨0, 0, 131072, 102400, 256, 200⟩).outW,
         (scaleUp 9 ⟨0, 0, 131072, 102400, 256, 200⟩).outH)) 50) :=
  ⟨proxy_quality_ignored tileEnvW emptyCache "u" 9 0 0 (1/2) 50 300 200 7
    (scaleUp 9 ⟨0, 0, 131072, 102400, 256, 200⟩) (by decide) (by decide) rfl rfl
    (by rw [cropPlanQ_eq_N,
        show cropPlanN 300 200 9 0 0 = some ⟨0, 0, 131072, 102400, 256, 200⟩
          from by decide, Option.map_some']),
    by decide⟩

end DeepZoomer
